import Mathlib

/-!
# Verification of the LoanDefaultRiskPredictor feature/training pipeline

Shallow embedding of the repository's data-handling code:

* `src/data_loader.py` — schema check and cleaning of record batches;
* `src/feature_engineer.py` — the fit/transform feature pipeline
  (target encoding, one-hot expansion, WOE quantile bucketing,
  interaction terms, macro-economic join);
* `src/train.py` — train/validation split, hyperparameter search,
  final refit, and metric computation;
* `src/predict_api.py` — the serving path of the fitted pipeline;
* `data_cleaning.py` and `train_model.py` — the standalone cleaning and
  training scripts at the repository root.

Tabular data is modelled as a `Frame`: an ordered list of column names
together with row-major cell data.  Cell values (`Val`) are rationals
(the model of the source's floating-point numerics), strings, or null
(the model of NaN/missing).  Pandas column operations used by the source
(`df[c] = s` which overwrites in place or appends a fresh column at the
end, `df.drop(columns=[c])`, `df.join`, `drop_duplicates`, `dropna`) are
embedded directly below.
-/

/-- A cell value: a rational number (model of the source's floats and
ints), a string (categorical / date values), or null (NaN / missing). -/
inductive Val where
  | num (q : ℚ)
  | str (s : String)
  | null
deriving DecidableEq, Repr

/-- String rendering of a category value, as used by scikit-learn's
`get_feature_names_out` when building one-hot column names. -/
def valName : Val → String
  | Val.num q => toString q
  | Val.str s => s
  | Val.null => "nan"

/-- Numeric content of a cell; non-numeric cells read as 0 (the source
only applies numeric operations to numeric columns of cleaned data). -/
def valQ : Val → ℚ
  | Val.num q => q
  | _ => 0

/-- A pandas DataFrame: ordered column names plus row-major cells.  In a
well-formed frame every row has one cell per column. -/
structure Frame where
  cols : List String
  rows : List (List Val)
deriving DecidableEq, Repr

/-- Cell of row `r` (laid out against `cols`) in column `n`; null when
the column is absent (the source would raise a KeyError there — every
theorem below only reads columns that are present). -/
def cellOf (cols : List String) (r : List Val) (n : String) : Val :=
  match (cols.zip r).find? (fun p => p.1 = n) with
  | some p => p.2
  | none => Val.null

/-- Column-name effect of `df[n] = s`: pandas overwrites an existing
column in place and appends a new one at the end. -/
def colsSet (cs : List String) (n : String) : List String :=
  if n ∈ cs then cs else cs ++ [n]

/-- `df[n] = vs` — overwrite column `n` in place if present, else append
it as the last column. -/
def Frame.setCol (f : Frame) (n : String) (vs : List Val) : Frame :=
  { cols := colsSet f.cols n
    rows :=
      if n ∈ f.cols then
        (f.rows.zip vs).map (fun p =>
          (f.cols.zip p.1).map (fun q => if q.1 = n then p.2 else q.2))
      else
        (f.rows.zip vs).map (fun p => p.1 ++ [p.2]) }

/-- `df.drop(columns=[n])` — remove every column labelled `n`. -/
def Frame.dropCol (f : Frame) (n : String) : Frame :=
  { cols := f.cols.filter (fun c => c ≠ n)
    rows := f.rows.map (fun r =>
      ((f.cols.zip r).filter (fun p => p.1 ≠ n)).map (fun p => p.2)) }

/-- `df[n]` — the cell list of column `n`, one entry per row. -/
def Frame.getCol (f : Frame) (n : String) : List Val :=
  f.rows.map (fun r => cellOf f.cols r n)

/-! ## WOE bucketing (`feature_engineer._woe_bucket`, lines 51–55)

The source calls `pd.qcut(series, q=bins, duplicates="drop")` on the
series *given to transform* and returns the categorical codes.  `qcut`
computes the `i/q` quantiles (NumPy linear interpolation) of the series
itself as bin edges, drops duplicate edges, and assigns each value the
index of the half-open interval `(e_j, e_(j+1)]` containing it, with the
series minimum (the lowest edge) included in bucket 0; values outside
the edge range would code as -1 (NaN), which cannot happen here because
the edges come from the very series being coded. -/

/-- NumPy linear-interpolation quantile of an ascending-sorted nonempty
list: index `h = p * (n - 1)`, interpolating between the neighbouring
order statistics. -/
def quantileQ (sorted : List ℚ) (p : ℚ) : ℚ :=
  let n := sorted.length
  let h : ℚ := p * ((n : ℚ) - 1)
  let i : ℕ := (⌊h⌋).toNat
  let lo := sorted.getD i 0
  let hi := sorted.getD (i + 1) lo
  lo + (h - (⌊h⌋ : ℚ)) * (hi - lo)

/-- The bin edges `pd.qcut(series, q, duplicates="drop")` uses: the
`0/q, 1/q, …, q/q` quantiles of the series with duplicate edges
dropped. -/
def qcutEdges (series : List ℚ) (q : ℕ) : List ℚ :=
  ((List.range (q + 1)).map (fun i : ℕ =>
    quantileQ (series.insertionSort (· ≤ ·)) ((i : ℚ) / (q : ℚ)))).dedup

/-- Categorical code `qcut` assigns to `v` for edge list `edges`
(ascending, duplicate-free): intervals are `(e_j, e_(j+1)]` and the
lowest edge itself codes as 0 (`include_lowest`); out-of-range values
code as -1 (NaN). -/
def qcutCode (edges : List ℚ) (v : ℚ) : Int :=
  if edges.head? = some v then 0
  else
    let c := edges.countP (fun e => e < v)
    if c = 0 ∨ c = edges.length then -1 else (c : Int) - 1

/-- `_woe_bucket(series, bins=10)`: quantile-bucket codes of the series,
with the edges computed from that same series (there is no fit-time
state for WOE columns anywhere in `FeatureEngineer`). -/
def woeBucket (series : List ℚ) : List Int :=
  let edges := qcutEdges series 10
  series.map (qcutCode edges)

/-! ## The feature pipeline (`feature_engineer.FeatureEngineer`)

Configuration constants from `feature_engineer.py` lines 34–36. -/

def TARGET_ENC_COLS : List String := ["emp_length"]

def OHE_COLS : List String := ["term", "home_ownership", "purpose"]

def WOE_COLS : List String := ["dti", "revol_util"]

/-- The module-level macro-economic reference table `MACRO_DF` (lines
40–47): its column list after `set_index("ym")` and a lookup from the
year-month key to that month's row of values. -/
structure EconTable where
  cols : List String
  lookup : String → Option (List Val)

/-- The state `FeatureEngineer.fit` (lines 68–84) stores: one fitted
target encoder per column of `TARGET_ENC_COLS` (its learned
category-to-value lookup, applied by `enc.transform`), and the one-hot
vocabulary the `OneHotEncoder` recorded for each column of `OHE_COLS`
(`np.unique` order, i.e. ascending).  Note that fit stores *nothing*
for the WOE columns — `_fitted` aside, there is no other fitted state.
The numeric lookup is the frame-level abstraction of the fitted target
encoder; the exact value it assigns each category is derived from the
library's fitting code separately below (`teEncodeFit`). -/
structure FittedState where
  teEncode : String → Val → ℚ
  oheCategories : String → List Val

/-- One-hot output column name, as scikit-learn's
`get_feature_names_out` builds it (line 100). -/
def oheName (c : String) (v : Val) : String := c ++ "_" ++ valName v

/-- `pd.to_datetime(s).dt.to_period("M")` on an ISO date string: the
year-month prefix. -/
def ymOf : Val → Val
  | Val.str s => Val.str (s.take 7)
  | _ => Val.null

/-- `loan_amnt / (annual_inc + 1)` cell-wise (line 110); NaN when an
operand is not numeric. -/
def loanToIncomeVal (a b : Val) : Val :=
  match a, b with
  | Val.num x, Val.num y => Val.num (x / (y + 1))
  | _, _ => Val.null

/-- `dti * emp_length` cell-wise (line 111); NaN when an operand is not
numeric. -/
def prodVal (a b : Val) : Val :=
  match a, b with
  | Val.num x, Val.num y => Val.num (x * y)
  | _, _ => Val.null

/-- `out_df.join(MACRO_DF, on=key)` (line 115): append the reference
table's columns, matched by the key cell; unmatched keys yield null
macro values, never a row drop. -/
def joinYm (f : Frame) (key : String) (m : EconTable) : Frame :=
  { cols := f.cols ++ m.cols
    rows := f.rows.map (fun r =>
      r ++ (match cellOf f.cols r key with
            | Val.str s => (m.lookup s).getD (List.replicate m.cols.length Val.null)
            | _ => List.replicate m.cols.length Val.null)) }

/-- `FeatureEngineer.transform` (lines 87–117) for a fitted pipeline
(the `_fitted` guard of lines 88–89 is witnessed by the `FittedState`
argument).  Steps exactly as in the source:
1. per target-encoded column, append `col_te` (the fitted lookup applied
   to the column) and drop the original;
2. append one indicator column per fit-time vocabulary entry of each
   one-hot column (0/1 per equality with the category; categories not in
   the vocabulary give all-zero indicators), then drop the originals;
3. per WOE column, append `col_woe` = `_woe_bucket` of the column *as it
   stands in this batch*, and drop the original;
4. append the two interaction columns (the second computed from the
   original input frame `df`);
5. append an `issue_ym` key column, left-join the macro table on it, and
   drop the key again.  `reset_index(drop=True)` is the identity in this
   row-list model.

Step 1 body (lines 94–96): append `col_te` — the fitted lookup
applied to the column — then drop the original column. -/
def teStep (st : FittedState) (acc : Frame) (col : String) : Frame :=
  (acc.setCol (col ++ "_te")
    ((acc.getCol col).map (fun v => Val.num (st.teEncode col v)))).dropCol col

/-- Step 2 body (lines 99–101): one indicator column per vocabulary
entry, 1 where the (still untouched) source column equals the category.
`src` is the frame the indicator array was computed from. -/
def oheIndicatorStep (src : Frame) (acc : Frame) (p : String × Val) : Frame :=
  acc.setCol (oheName p.1 p.2)
    ((src.getCol p.1).map (fun x => Val.num (if x = p.2 then 1 else 0)))

/-- Step 3 body (lines 105–107): append `col_woe` — `_woe_bucket` of
the column as it stands in this batch — then drop the original. -/
def woeStep (acc : Frame) (col : String) : Frame :=
  (acc.setCol (col ++ "_woe")
    ((woeBucket ((acc.getCol col).map valQ)).map (fun k => Val.num (k : ℚ)))).dropCol col

def transform (st : FittedState) (m : EconTable) (df : Frame) : Frame :=
  let out1 := TARGET_ENC_COLS.foldl (teStep st) df
  let ohePairs := OHE_COLS.flatMap (fun c => (st.oheCategories c).map (fun v => (c, v)))
  let out2a := ohePairs.foldl (oheIndicatorStep out1) out1
  let out2 := OHE_COLS.foldl Frame.dropCol out2a
  let out3 := WOE_COLS.foldl woeStep out2
  let out4a := out3.setCol "loan_to_income"
    (List.zipWith loanToIncomeVal (out3.getCol "loan_amnt") (out3.getCol "annual_inc"))
  let out4 := out4a.setCol "dti_emp_inter"
    (List.zipWith prodVal (df.getCol "dti") (df.getCol "emp_length"))
  let out5 := out4.setCol "issue_ym" ((df.getCol "issue_d").map ymOf)
  (joinYm out5 "issue_ym" m).dropCol "issue_ym"

/-! ### The column-level shadow of `transform`

Every frame operation above determines its output column list from the
input column list alone (cell data never feeds back into column names),
so `transform`'s column layout factors through the following function —
proved as `transform_cols` below.  This is the formal content of the
source's fixed output layout. -/

/-- Column effect of `teStep`. -/
def teStepCols (acc : List String) (col : String) : List String :=
  (colsSet acc (col ++ "_te")).filter (fun c => c ≠ col)

/-- Column effect of `oheIndicatorStep`. -/
def oheStepCols (acc : List String) (p : String × Val) : List String :=
  colsSet acc (oheName p.1 p.2)

/-- Column effect of `Frame.dropCol`. -/
def dropStepCols (acc : List String) (col : String) : List String :=
  acc.filter (fun c => c ≠ col)

/-- Column effect of `woeStep`. -/
def woeStepCols (acc : List String) (col : String) : List String :=
  (colsSet acc (col ++ "_woe")).filter (fun c => c ≠ col)

/-- The column list `transform` produces, as a function of the input
column list and the fitted state. -/
def transformCols (st : FittedState) (m : EconTable) (cs : List String) : List String :=
  let c1 := TARGET_ENC_COLS.foldl teStepCols cs
  let ohePairs := OHE_COLS.flatMap (fun c => (st.oheCategories c).map (fun v => (c, v)))
  let c2a := ohePairs.foldl oheStepCols c1
  let c2 := OHE_COLS.foldl dropStepCols c2a
  let c3 := WOE_COLS.foldl woeStepCols c2
  let c4 := colsSet (colsSet c3 "loan_to_income") "dti_emp_inter"
  ((colsSet c4 "issue_ym") ++ m.cols).filter (fun c => c ≠ "issue_ym")

/-! ## The fitted target encoder (`category_encoders.TargetEncoder`)

`fit` (lines 70–73) constructs `TargetEncoder(cols=[col],
smoothing=0.25)` and fits it on the column and the labels.  The
library's fitting code computes, per observed category with count `n`
and label mean `mean`, with `prior` the global label mean and
`min_samples_leaf = 1` (the default): the sigmoid weight
`s = 1 / (1 + exp(-(n - 1) / 0.25))` and the value
`prior * (1 - s) + mean * s`, overridden to `prior` for single-
occurrence categories; unknown (and missing) categories map to `prior`
(`handle_unknown='value'`, the default). -/

/-- Mean of a rational list (0 for the empty list under total division,
mirroring the NaN the source would produce only on empty input). -/
def listMean (l : List ℚ) : ℚ := l.sum / (l.length : ℚ)

/-- The labels of the fit rows bearing category `c`. -/
def fitCatLabels (rows : List (Val × ℚ)) (c : Val) : List ℚ :=
  (rows.filter (fun p => decide (p.1 = c))).map (fun p => p.2)

/-- The library's `_weighting` for `min_samples_leaf = 1`,
`smoothing = 0.25`. -/
noncomputable def teWeighting (n : ℕ) : ℝ :=
  1 / (1 + Real.exp (-(((n : ℝ) - 1) / (1 / 4))))

/-- The library's smoothed category value: sigmoid blend of prior and
category mean, with single-occurrence categories pinned to the prior. -/
noncomputable def teSmoothedValue (n : ℕ) (catMean prior : ℚ) : ℝ :=
  if n = 1 then (prior : ℝ)
  else (prior : ℝ) * (1 - teWeighting n) + (catMean : ℝ) * teWeighting n

/-- The value the fitted target encoder assigns to category `c` given
the fit-time rows (category, label): the smoothed value of `c`'s
fit-time statistics, or the global prior when `c` was never seen. -/
noncomputable def teEncodeFit (rows : List (Val × ℚ)) (c : Val) : ℝ :=
  if (fitCatLabels rows c).isEmpty then
    ((listMean (rows.map (fun p => p.2))) : ℝ)
  else
    teSmoothedValue (fitCatLabels rows c).length
      (listMean (fitCatLabels rows c)) (listMean (rows.map (fun p => p.2)))

/-- The smoothing formula exactly as the specification states it —
`(category_count * category_mean + smoothing_weight * global_mean) /
(category_count + smoothing_weight)` — written from the spec's words
for comparison against the source-derived `teEncodeFit`. -/
def specSmoothedMean (n : ℕ) (catMean prior w : ℚ) : ℚ :=
  ((n : ℚ) * catMean + w * prior) / ((n : ℚ) + w)

/-! ## Cleaning (`data_loader._clean`, lines 138–146, and the root
script `data_cleaning.load_and_clean_data`) -/

/-- `DTYPES.keys()` of `data_loader.py` lines 33–48; `REQUIRED_COLUMNS`
is this set. -/
def DTYPES_COLS : List String :=
  ["loan_id", "loan_amnt", "term", "emp_length", "home_ownership",
   "annual_inc", "purpose", "dti", "delinq_2yrs", "open_acc", "pub_rec",
   "revol_util", "total_acc", "defaulted"]

/-- Whether a row contains a NaN cell. -/
def rowHasNull (r : List Val) : Bool := r.any (fun v => decide (v = Val.null))

/-- `df.drop_duplicates(key)`: keep each row whose key cell has not
occurred earlier (`seen` accumulates the key cells already kept). -/
def dropDupRows (cols : List String) (key : String) :
    List (List Val) → List Val → List (List Val)
  | [], _ => []
  | r :: rs, seen =>
    if cellOf cols r key ∈ seen then dropDupRows cols key rs seen
    else r :: dropDupRows cols key rs (cellOf cols r key :: seen)

/-- `_clean(df)`: missing-column check (ValueError modelled as `none`),
then `drop_duplicates("loan_id").dropna()` and `reset_index(drop=True)`
(the identity here).  The dtype enforcement of line 144 is the identity
in this value model: every cell is already typed. -/
def cleanBatch (f : Frame) : Option Frame :=
  if DTYPES_COLS.all (fun c => decide (c ∈ f.cols)) then
    some { cols := f.cols
           rows := (dropDupRows f.cols "loan_id" f.rows []).filter
             (fun r => !rowHasNull r) }
  else none

/-- `pd.concat(chunks, ignore_index=True)` (train.py line 48) for two
identically-columned cleaned chunks. -/
def concatFrames (a b : Frame) : Frame := { cols := a.cols, rows := a.rows ++ b.rows }

/-- `Series.map({'Y': 1, 'N': 0})`: pandas maps every value outside the
dictionary's keys — including NaN — to NaN. -/
def loanStatusMap (v : Val) : Val :=
  match v with
  | Val.str s => if s = "Y" then Val.num 1 else if s = "N" then Val.num 0 else Val.null
  | _ => Val.null

/-- `load_and_clean_data` (data_cleaning.py lines 3–7) after the read:
drop all-null rows first, *then* remap the `Loan_Status` label. -/
def loadAndCleanData (f : Frame) : Frame :=
  let d : Frame := { cols := f.cols, rows := f.rows.filter (fun r => !rowHasNull r) }
  d.setCol "Loan_Status" ((d.getCol "Loan_Status").map loanStatusMap)

/-! ## Metrics (`train.py` lines 103–105, `train_model.py` lines 10–15) -/

/-- `sklearn.metrics.roc_auc_score` on binary labels: the area under
the ROC curve, equal to the Mann–Whitney statistic — the fraction of
(positive, negative) pairs ranked correctly, ties counting one half. -/
def aucScore (y s : List ℚ) : ℚ :=
  let pairs := y.zip s
  let pos := (pairs.filter (fun p => decide (p.1 = 1))).map (fun p => p.2)
  let neg := (pairs.filter (fun p => decide (p.1 = 0))).map (fun p => p.2)
  ((pos.map (fun sp =>
    (neg.map (fun sn => if sn < sp then (1 : ℚ) else if sn = sp then 1 / 2 else 0)).sum)).sum)
    / ((pos.length : ℚ) * (neg.length : ℚ))

/-- True positives of boolean predictions against 0/1 labels. -/
def tpCount (y : List ℚ) (pred : List Bool) : ℕ :=
  ((y.zip pred).filter (fun p => decide (p.1 = 1) && p.2)).length

/-- False positives. -/
def fpCount (y : List ℚ) (pred : List Bool) : ℕ :=
  ((y.zip pred).filter (fun p => decide (p.1 = 0) && p.2)).length

/-- False negatives. -/
def fnCount (y : List ℚ) (pred : List Bool) : ℕ :=
  ((y.zip pred).filter (fun p => decide (p.1 = 1) && !p.2)).length

/-- Precision (0 when nothing is predicted positive, total division). -/
def precisionQ (y : List ℚ) (pred : List Bool) : ℚ :=
  (tpCount y pred : ℚ) / ((tpCount y pred : ℚ) + (fpCount y pred : ℚ))

/-- Recall (0 when there are no positives, total division). -/
def recallQ (y : List ℚ) (pred : List Bool) : ℚ :=
  (tpCount y pred : ℚ) / ((tpCount y pred : ℚ) + (fnCount y pred : ℚ))

/-- `sklearn.metrics.f1_score`: harmonic mean of precision and recall. -/
def f1Score (y : List ℚ) (pred : List Bool) : ℚ :=
  2 * precisionQ y pred * recallQ y pred / (precisionQ y pred + recallQ y pred)

/-- The decision threshold of `train.py` line 105: `preds_full > 0.5`,
strictly greater. -/
def trainThresholdPositive (prob : ℚ) : Bool := decide (prob > 1 / 2)

/-- The serving classification of `predict_api.py` line 110:
`prob >= 0.5`. -/
def servingDefault (prob : ℚ) : Bool := decide (prob ≥ 1 / 2)

/-- The metric pair of `train.py` lines 103–105: AUC of the predicted
probabilities themselves, and F1 of the probabilities thresholded
strictly above 0.5. -/
def trainEval (y probs : List ℚ) : ℚ × ℚ :=
  (aucScore y probs, f1Score y (probs.map trainThresholdPositive))

/-- The metric pair of `train_model.py` lines 10–15: both `f1_score`
and `roc_auc_score` are fed `model.predict(X_test)` — hard 0/1 class
predictions, not probabilities. -/
def trainModelEval (y preds : List ℚ) : ℚ × ℚ :=
  (f1Score y (preds.map (fun p => decide (p = 1))), aucScore y preds)

/-! ## Train/validation split (`train.py` lines 54–56,
`train_model.py` line 7) -/

/-- The arguments a call to `sklearn.model_selection.train_test_split`
passes: test proportion, whether a `stratify=` array is given, and the
fixed `random_state`. -/
structure SplitCall where
  testSize : ℚ
  stratified : Bool
  seed : ℕ
deriving DecidableEq, Repr

/-- `train.py` lines 54–56: `test_size=0.2, stratify=y_full,
random_state=2025`. -/
def trainSplitCall : SplitCall := { testSize := 1 / 5, stratified := true, seed := 2025 }

/-- `train_model.py` line 7: `test_size=0.2, random_state=42` — no
`stratify` argument. -/
def trainModelSplitCall : SplitCall := { testSize := 1 / 5, stratified := false, seed := 42 }

/-- scikit-learn's test-set size for a fractional `test_size`:
`ceil(frac * n)`. -/
def nTestOf (n : ℕ) (frac : ℚ) : ℕ := (⌈frac * (n : ℚ)⌉).toNat

/-- Model of the per-class allocation a stratified split performs
(scikit-learn `StratifiedShuffleSplit`, via `_approximate_mode`): with
`n0`/`n1` rows of class 0/1 and an 80/20 call, class 1 contributes `t1`
test rows with `t1` between the floor and the ceiling of its exact
proportional share `n1 * n_test / n`. -/
def stratTestBounds (n0 n1 t1 : ℕ) : Prop :=
  ((⌊(n1 : ℚ) * (nTestOf (n0 + n1) (1 / 5) : ℚ) / ((n0 + n1 : ℕ) : ℚ)⌋ : ℚ) ≤ (t1 : ℚ))
  ∧ ((t1 : ℚ) ≤ (⌈(n1 : ℚ) * (nTestOf (n0 + n1) (1 / 5) : ℚ) / ((n0 + n1 : ℕ) : ℚ)⌉ : ℚ))

/-! ## Final refit (`train.py` lines 99–101) -/

/-- The slice of an Optuna trial the refit reads: its user-attribute
dictionary (string → round count here) and the early-stopped
`best_iteration` the trial's LightGBM model reached. -/
structure StudyTrial where
  userAttrs : List (String × ℕ)
  bestIteration : ℕ
deriving DecidableEq, Repr

/-- `objective` (train.py lines 61–89) never calls `set_user_attr`:
every trial it produces carries an empty user-attribute dictionary. -/
def objectiveUserAttrs : List (String × ℕ) := []

/-- A trial as produced by `objective`, whose model early-stopped at
round `bestIter`. -/
def objectiveTrial (bestIter : ℕ) : StudyTrial :=
  { userAttrs := objectiveUserAttrs, bestIteration := bestIter }

/-- `dict.get(key, default)`. -/
def userAttrsGetD (attrs : List (String × ℕ)) (k : String) (d : ℕ) : ℕ :=
  match attrs.find? (fun p => decide (p.1 = k)) with
  | some p => p.2
  | none => d

/-- The boosting-round count of the final refit (train.py line 101):
`study.best_trial.user_attrs.get("n_boost_round", 500)`. -/
def finalNumBoostRound (best : StudyTrial) : ℕ :=
  userAttrsGetD best.userAttrs "n_boost_round" 500

/-! ## Concrete fixtures used by the closed theorems below -/

/-- A representative fitted state: one-hot vocabularies in the sorted
order `np.unique` records, and an arbitrary numeric target-encoder
lookup (the transform column layout does not depend on it). -/
def fs0 : FittedState :=
  { teEncode := fun _ _ => 0
    oheCategories := fun c =>
      if c = "term" then [Val.str " 36 months", Val.str " 60 months"]
      else if c = "home_ownership" then
        [Val.str "MORTGAGE", Val.str "OTHER", Val.str "OWN", Val.str "RENT"]
      else if c = "purpose" then
        [Val.str "credit_card", Val.str "debt_consolidation",
         Val.str "home_improvement", Val.str "other"]
      else [] }

/-- A macro table with the repository's reference columns (`date` plus
the two indicator series) and no loaded months. -/
def econ0 : EconTable :=
  { cols := ["date", "fed_funds_rate", "unemployment_rate"], lookup := fun _ => none }

/-- The training frame's column list: the data columns of
`DataLoader.DTYPES` plus `issue_d` (in the CSV order of
`scripts/synthetic_data.py`), after `train.py` line 49 pops the
`defaulted` label. -/
def trainCols : List String :=
  ["loan_id", "loan_amnt", "term", "emp_length", "home_ownership",
   "annual_inc", "purpose", "dti", "delinq_2yrs", "open_acc", "pub_rec",
   "revol_util", "total_acc", "issue_d"]

/-- The record the serving endpoint hands to `transform`
(`predict_api.py` line 104): the `LoanRow` fields in declaration order
*plus* the `"defaulted": 0` entry the route merges in. -/
def servingCols : List String := trainCols ++ ["defaulted"]

/-- A one-row training-schema frame. -/
def trainFrame1 : Frame :=
  { cols := trainCols
    rows := [[Val.num 1, Val.num 10000, Val.str " 36 months", Val.num 5,
              Val.str "MORTGAGE", Val.num 80000, Val.str "credit_card",
              Val.num 10, Val.num 0, Val.num 5, Val.num 0, Val.num 30,
              Val.num 20, Val.str "2020-01-15"]] }

/-- The same record as the serving path builds it, with `defaulted = 0`
appended. -/
def servingFrame1 : Frame :=
  { cols := servingCols
    rows := [[Val.num 1, Val.num 10000, Val.str " 36 months", Val.num 5,
              Val.str "MORTGAGE", Val.num 80000, Val.str "credit_card",
              Val.num 10, Val.num 0, Val.num 5, Val.num 0, Val.num 30,
              Val.num 20, Val.str "2020-01-15", Val.num 0]] }

/-- The output column list `transform` actually produces on the
training schema: the untouched input columns first (identifier, raw
numerics, issue date), then the appended encoded blocks. -/
def transformedTrainCols : List String :=
  ["loan_id", "loan_amnt", "annual_inc", "delinq_2yrs", "open_acc",
   "pub_rec", "total_acc", "issue_d", "emp_length_te",
   "term_ 36 months", "term_ 60 months", "home_ownership_MORTGAGE",
   "home_ownership_OTHER", "home_ownership_OWN", "home_ownership_RENT",
   "purpose_credit_card", "purpose_debt_consolidation",
   "purpose_home_improvement", "purpose_other", "dti_woe",
   "revol_util_woe", "loan_to_income", "dti_emp_inter", "date",
   "fed_funds_rate", "unemployment_rate"]

/-- The output column list as the specification claims it: the
target-encoded columns, then the one-hot expansions, then the WOE
buckets, then the interactions, then the macro columns — and nothing
else.  Written from the spec's words for comparison with `transform`. -/
def specOrderCols (st : FittedState) (m : EconTable) : List String :=
  (TARGET_ENC_COLS.map (fun c => c ++ "_te"))
    ++ (OHE_COLS.flatMap (fun c => (st.oheCategories c).map (oheName c)))
    ++ (WOE_COLS.map (fun c => c ++ "_woe"))
    ++ ["loan_to_income", "dti_emp_inter"]
    ++ m.cols

/-- Fit-time (category, label) rows for the target encoder: category
`"A"` occurs once with label 1, category `"B"` twice with label 0; the
global label mean is 1/3. -/
def rows4 : List (Val × ℚ) := [(Val.str "A", 1), (Val.str "B", 0), (Val.str "B", 0)]

/-- A batch whose `Loan_Status` holds the (non-null) value `"P"`, which
is outside the `{'Y','N'}` mapping dictionary. -/
def lsFrame : Frame := { cols := ["Loan_Status"], rows := [[Val.str "P"]] }

/-- A batch whose `Loan_Status` values are all within `{'Y','N'}`. -/
def lsYN : Frame := { cols := ["Loan_Status"], rows := [[Val.str "Y"]] }

/-- A clean full-schema row with identifier 1. -/
def row5A : List Val :=
  [Val.num 1, Val.num 5000, Val.str " 36 months", Val.num 2, Val.str "RENT",
   Val.num 40000, Val.str "car", Val.num 12, Val.num 0, Val.num 3, Val.num 0,
   Val.num 25, Val.num 9, Val.num 0]

/-- A full-schema batch containing a duplicate of identifier 1 and a row
(identifier 2) with a missing value. -/
def f5 : Frame :=
  { cols := DTYPES_COLS
    rows := [row5A,
             [Val.num 1, Val.num 9000, Val.str " 60 months", Val.num 7, Val.str "OWN",
              Val.num 90000, Val.str "house", Val.num 3, Val.num 0, Val.num 8, Val.num 0,
              Val.num 40, Val.num 22, Val.num 1],
             [Val.num 2, Val.null, Val.str " 36 months", Val.num 1, Val.str "RENT",
              Val.num 30000, Val.str "car", Val.num 20, Val.num 0, Val.num 2, Val.num 0,
              Val.num 60, Val.num 5, Val.num 1]] }

/-- What cleaning leaves of `f5`: only the first identifier-1 row. -/
def g5 : Frame := { cols := DTYPES_COLS, rows := [row5A] }

/-- Two clean full-schema rows sharing identifier 1 (used as separate
chunks). -/
def row6A : List Val :=
  [Val.num 1, Val.num 5000, Val.str " 36 months", Val.num 2, Val.str "RENT",
   Val.num 40000, Val.str "car", Val.num 12, Val.num 0, Val.num 3, Val.num 0,
   Val.num 25, Val.num 9, Val.num 0]

def row6B : List Val :=
  [Val.num 1, Val.num 8000, Val.str " 60 months", Val.num 6, Val.str "OWN",
   Val.num 70000, Val.str "house", Val.num 8, Val.num 0, Val.num 6, Val.num 0,
   Val.num 50, Val.num 14, Val.num 1]

/-- A batch holding both identifier-1 rows. -/
def f6 : Frame := { cols := DTYPES_COLS, rows := [row6A, row6B] }

/-- What cleaning leaves of `f6`: the first occurrence only. -/
def g6 : Frame := { cols := DTYPES_COLS, rows := [row6A] }

/-- First cleaned chunk: one row with identifier 1. -/
def chunkA : Frame := { cols := DTYPES_COLS, rows := [row6A] }

/-- Second cleaned chunk: a different row, also with identifier 1. -/
def chunkB : Frame := { cols := DTYPES_COLS, rows := [row6B] }

/-! # Theorems -/

/-! ## Column-level factoring of `transform` -/

theorem setCol_cols (f : Frame) (n : String) (vs : List Val) :
    (f.setCol n vs).cols = colsSet f.cols n := rfl

theorem dropCol_cols (f : Frame) (n : String) :
    (f.dropCol n).cols = f.cols.filter (fun c => c ≠ n) := rfl

theorem joinYm_cols (f : Frame) (k : String) (m : EconTable) :
    (joinYm f k m).cols = f.cols ++ m.cols := rfl

/-- A frame fold whose step's column effect factors through the column
list factors as a whole. -/
theorem foldl_frame_cols {α : Type} (step : Frame → α → Frame)
    (stepC : List String → α → List String)
    (h : ∀ f a, (step f a).cols = stepC f.cols a) :
    ∀ (l : List α) (f : Frame), (l.foldl step f).cols = l.foldl stepC f.cols := by
  intro l
  induction l with
  | nil => intro f; rfl
  | cons a t ih => intro f; rw [List.foldl_cons, List.foldl_cons, ih, h]

/-- The column list of `transform`'s output depends only on the input
column list (and the fitted state): cell data never reaches the column
layout. -/
theorem transform_cols (st : FittedState) (m : EconTable) (f : Frame) :
    (transform st m f).cols = transformCols st m f.cols := by
  simp only [transform, transformCols, setCol_cols, dropCol_cols, joinYm_cols]
  rw [foldl_frame_cols woeStep woeStepCols (fun _ _ => rfl),
      foldl_frame_cols Frame.dropCol dropStepCols (fun _ _ => rfl),
      foldl_frame_cols (oheIndicatorStep (TARGET_ENC_COLS.foldl (teStep st) f)) oheStepCols
        (fun _ _ => rfl),
      foldl_frame_cols (teStep st) teStepCols (fun _ _ => rfl)]

/-! ## C1 — WOE bucketing -/

/-- The `qcut` edges of the two-value batch `[1, 2]`. -/
theorem qcutEdges_12 :
    qcutEdges [1, 2] 10
      = [1, 11/10, 6/5, 13/10, 7/5, 3/2, 8/5, 17/10, 9/5, 19/10, 2] := by
  unfold qcutEdges
  have h : (List.range (10 + 1)) = [0, 1, 2, 3, 4, 5, 6, 7, 8, 9, 10] := by decide
  have hs : List.insertionSort (· ≤ ·) [1, 2] = [(1 : ℚ), 2] := by
    norm_num [List.insertionSort, List.orderedInsert]
  simp only [h, hs]
  have hm : ([0, 1, 2, 3, 4, 5, 6, 7, 8, 9, 10].map
      (fun i : ℕ => quantileQ [(1 : ℚ), 2] ((i : ℚ) / ((10 : ℕ) : ℚ))))
      = [1, 11/10, 6/5, 13/10, 7/5, 3/2, 8/5, 17/10, 9/5, 19/10, 2] := by
    norm_num [quantileQ, List.getD, -Int.self_sub_floor]
  rw [hm]
  rw [List.dedup_eq_self.mpr]
  norm_num [List.nodup_cons]

/-- The `qcut` edges of the two-value batch `[2, 3]`. -/
theorem qcutEdges_23 :
    qcutEdges [2, 3] 10
      = [2, 21/10, 11/5, 23/10, 12/5, 5/2, 13/5, 27/10, 14/5, 29/10, 3] := by
  unfold qcutEdges
  have h : (List.range (10 + 1)) = [0, 1, 2, 3, 4, 5, 6, 7, 8, 9, 10] := by decide
  have hs : List.insertionSort (· ≤ ·) [2, 3] = [(2 : ℚ), 3] := by
    norm_num [List.insertionSort, List.orderedInsert]
  simp only [h, hs]
  have hm : ([0, 1, 2, 3, 4, 5, 6, 7, 8, 9, 10].map
      (fun i : ℕ => quantileQ [(2 : ℚ), 3] ((i : ℚ) / ((10 : ℕ) : ℚ))))
      = [2, 21/10, 11/5, 23/10, 12/5, 5/2, 13/5, 27/10, 14/5, 29/10, 3] := by
    norm_num [quantileQ, List.getD, -Int.self_sub_floor]
  rw [hm]
  rw [List.dedup_eq_self.mpr]
  norm_num [List.nodup_cons]

/-- C1: the claim says a fitted pipeline assigns each WOE value its
bucket via quantile edges computed at fit time and stored in the fitted
state, so the same value gets the same bucket regardless of the other
records in the transform batch.  The code instead recomputes the
quantile edges from the transform-time batch itself (`_woe_bucket`
calls `pd.qcut` on the series it is given; `fit` stores no WOE state at
all): the value 2 is coded into bucket 9 when transformed alongside the
value 1, but into bucket 0 when transformed alongside the value 3. -/
theorem C1_woe_bucket_depends_on_transform_batch :
    woeBucket [1, 2] = [0, 9] ∧ woeBucket [2, 3] = [0, 9] := by
  constructor
  · unfold woeBucket
    rw [qcutEdges_12]
    norm_num [qcutCode, List.countP_cons, List.head?]
  · unfold woeBucket
    rw [qcutEdges_23]
    norm_num [qcutCode, List.countP_cons, List.head?]

/-! ## C2 / C3 — transform output columns -/

/-- C2: for the fitted pipeline, the transform output column list is
indeed identical for every batch carrying the training schema — 1 row,
N rows, or repeated calls.  But the claim also requires the serving
path's single-record transform to match the training-time matrix shape,
and it does not: `predict_api.predict` merges `{"defaulted": 0}` into
the record before transforming, so the serving output carries the extra
passthrough column `defaulted` and has one column more than the
training matrix. -/
theorem C2_serving_columns_mismatch_training :
    (∀ rs : List (List Val),
      (transform fs0 econ0 (Frame.mk trainCols rs)).cols = transformedTrainCols) ∧
    (transform fs0 econ0 servingFrame1).cols ≠ (transform fs0 econ0 trainFrame1).cols ∧
    "defaulted" ∈ (transform fs0 econ0 servingFrame1).cols ∧
    (transform fs0 econ0 servingFrame1).cols.length
      = (transform fs0 econ0 trainFrame1).cols.length + 1 := by
  refine ⟨?_, ?_, ?_, ?_⟩
  · intro rs
    rw [transform_cols]
    show transformCols fs0 econ0 trainCols = transformedTrainCols
    decide
  · rw [transform_cols, transform_cols]
    decide
  · rw [transform_cols]
    decide
  · rw [transform_cols, transform_cols]
    decide

/-- C3 (counterexample): the claim says the output columns are exactly
the target-encoded, one-hot, WOE, interaction and macro columns in that
order and nothing else.  The code's output on the training schema is
not that list: the untouched input columns (identifier, raw numerics,
the non-numeric issue date) remain and come first. -/
theorem C3_output_columns_not_spec_order :
    (transform fs0 econ0 trainFrame1).cols ≠ specOrderCols fs0 econ0 := by
  rw [transform_cols]
  decide

/-- C3 (amended): the encoded blocks do appear in exactly the claimed
relative order — target-encoded, then one-hot (vocabulary order per
column, columns in configured order), then WOE buckets, then
interactions, then macro columns — but they are *preceded* by the
untouched passthrough input columns (everything not target-encoded,
one-hot or WOE: the identifier, raw numerics and the non-numeric issue
date), for every batch carrying the training schema. -/
theorem C3_amended_output_column_layout :
    ∀ rs : List (List Val),
      (transform fs0 econ0 (Frame.mk trainCols rs)).cols
        = (trainCols.filter (fun c =>
            !(TARGET_ENC_COLS.contains c || OHE_COLS.contains c || WOE_COLS.contains c)))
          ++ specOrderCols fs0 econ0 := by
  intro rs
  rw [transform_cols]
  show transformCols fs0 econ0 trainCols = _
  decide

/-! ## C4 — target-encoder smoothing -/

/-- C4 (counterexample): the claim's smoothing formula
`(count * mean + w * prior) / (count + w)` does not match the fitted
encoder.  On the fit rows `rows4` category `"A"` (count 1, mean 1,
prior 1/3) is encoded as the prior 1/3, because the library pins
single-occurrence categories to the prior, while the claim's formula
yields 13/15. -/
theorem C4_counterexample_smoothing_formula :
    teEncodeFit rows4 (Val.str "A") ≠ ((specSmoothedMean 1 1 (1/3) (1/4) : ℚ) : ℝ) := by
  have h1 : fitCatLabels rows4 (Val.str "A") = [1] := by decide
  have h2 : listMean (rows4.map (fun p => p.2)) = 1/3 := by
    norm_num [listMean, rows4]
  rw [teEncodeFit, h1, h2]
  norm_num [teSmoothedValue, specSmoothedMean, listMean]

/-- C4 (amended): the fitted target encoder maps a category never seen
at fit time to exactly the global label mean (the claim's fallback part
is right); a category seen exactly once also maps to the global mean;
and a category with count `n ≥ 2` maps to the sigmoid blend
`prior * (1 - s) + mean * s` with `s = 1 / (1 + exp(-(n - 1) / 0.25))`
— not to the additive smoothing formula the claim states. -/
theorem C4_amended_target_encoder_values :
    (∀ (rows : List (Val × ℚ)) (c : Val), (∀ p ∈ rows, p.1 ≠ c) →
      teEncodeFit rows c = ((listMean (rows.map (fun p => p.2))) : ℝ)) ∧
    (∀ (rows : List (Val × ℚ)) (c : Val), (fitCatLabels rows c).length = 1 →
      teEncodeFit rows c = ((listMean (rows.map (fun p => p.2))) : ℝ)) ∧
    (∀ (rows : List (Val × ℚ)) (c : Val), 2 ≤ (fitCatLabels rows c).length →
      teEncodeFit rows c =
        ((listMean (rows.map (fun p => p.2))) : ℝ)
            * (1 - teWeighting (fitCatLabels rows c).length)
          + ((listMean (fitCatLabels rows c)) : ℝ)
            * teWeighting (fitCatLabels rows c).length) := by
  refine ⟨?_, ?_, ?_⟩
  · intro rows c h
    have hf : fitCatLabels rows c = [] := by
      unfold fitCatLabels
      rw [List.filter_eq_nil_iff.mpr]
      · rfl
      · intro p hp
        simpa using h p hp
    rw [teEncodeFit, hf]
    simp
  · intro rows c h
    have hne : (fitCatLabels rows c).isEmpty = false := by
      cases hf : fitCatLabels rows c with
      | nil => rw [hf] at h; simp at h
      | cons a t => rfl
    rw [teEncodeFit, hne]
    simp [teSmoothedValue, h]
  · intro rows c h
    have hne : (fitCatLabels rows c).isEmpty = false := by
      cases hf : fitCatLabels rows c with
      | nil => rw [hf] at h; simp at h
      | cons a t => rfl
    have hn1 : (fitCatLabels rows c).length ≠ 1 := by omega
    rw [teEncodeFit, hne]
    simp [teSmoothedValue, hn1]

/-- Witness for C4: the three cases of the amended theorem evaluated on
the concrete fit rows `rows4` (unseen category `"C"`, singleton
category `"A"`, twice-seen category `"B"`). -/
theorem C4_amended_target_encoder_values_witness :
    ((∀ p ∈ rows4, p.1 ≠ Val.str "C") ∧
      teEncodeFit rows4 (Val.str "C") = ((listMean (rows4.map (fun p => p.2))) : ℝ)) ∧
    ((fitCatLabels rows4 (Val.str "A")).length = 1 ∧
      teEncodeFit rows4 (Val.str "A") = ((listMean (rows4.map (fun p => p.2))) : ℝ)) ∧
    (2 ≤ (fitCatLabels rows4 (Val.str "B")).length ∧
      teEncodeFit rows4 (Val.str "B") =
        ((listMean (rows4.map (fun p => p.2))) : ℝ)
            * (1 - teWeighting (fitCatLabels rows4 (Val.str "B")).length)
          + ((listMean (fitCatLabels rows4 (Val.str "B"))) : ℝ)
            * teWeighting (fitCatLabels rows4 (Val.str "B")).length) :=
  ⟨⟨by decide, C4_amended_target_encoder_values.1 rows4 (Val.str "C") (by decide)⟩,
   ⟨by decide, C4_amended_target_encoder_values.2.1 rows4 (Val.str "A") (by decide)⟩,
   ⟨by decide, C4_amended_target_encoder_values.2.2 rows4 (Val.str "B") (by decide)⟩⟩

/-! ## C5 — no nulls after cleaning -/

/-- A row whose `rowHasNull` check is false contains no null cell. -/
theorem null_not_mem_of_rowHasNull_eq_false {r : List Val} (h : rowHasNull r = false) :
    Val.null ∉ r := by
  intro hm
  have ht : rowHasNull r = true := by
    unfold rowHasNull
    exact List.any_eq_true.mpr ⟨Val.null, hm, by simp⟩
  rw [ht] at h
  exact Bool.noConfusion h

/-- C5 (counterexample): `load_and_clean_data` remaps the label *after*
its null-drop, so a batch whose `Loan_Status` is the non-null value
`"P"` comes back with a retained row whose label field is null —
contradicting the claim that no retained row has a null in a required
field (including the label). -/
theorem C5_counterexample_label_remap_leaves_null :
    (loadAndCleanData lsFrame).rows = [[Val.null]] := by decide

/-- C5 (amended): after the main loader's cleaning (`_clean`) no
retained row contains a null in any field; after
`load_and_clean_data`'s cleaning the same holds provided every
`Loan_Status` value of the input is `'Y'` or `'N'` — the label remap
happens after the null-drop, so any other value becomes a null label. -/
theorem C5_amended_no_null_after_cleaning :
    (∀ f g, cleanBatch f = some g → ∀ r ∈ g.rows, Val.null ∉ r) ∧
    (∀ f : Frame, "Loan_Status" ∈ f.cols →
      (∀ v ∈ f.getCol "Loan_Status", v = Val.str "Y" ∨ v = Val.str "N") →
      ∀ r ∈ (loadAndCleanData f).rows, Val.null ∉ r) := by
  constructor
  · intro f g hg r hr
    unfold cleanBatch at hg
    split at hg
    · injection hg with hg
      subst hg
      simp only at hr
      obtain ⟨-, hnull⟩ := List.mem_filter.mp hr
      exact null_not_mem_of_rowHasNull_eq_false (by simpa using hnull)
    · exact Option.noConfusion hg
  · intro f hcol hvals r hr
    simp only [loadAndCleanData, Frame.setCol, Frame.getCol] at hr
    rw [if_pos hcol] at hr
    obtain ⟨p, hp, rfl⟩ := List.mem_map.mp hr
    have hp1 := (List.of_mem_zip hp).1
    have hp2 := (List.of_mem_zip hp).2
    have hp1n : rowHasNull p.1 = false := by
      simpa using (List.mem_filter.mp hp1).2
    obtain ⟨v, hv, hvp⟩ := List.mem_map.mp hp2
    obtain ⟨rw0, hrw0, hcell⟩ := List.mem_map.mp hv
    have hvf : v ∈ f.getCol "Loan_Status" := by
      unfold Frame.getCol
      exact List.mem_map.mpr ⟨rw0, (List.mem_filter.mp hrw0).1, hcell⟩
    have hp2v : p.2 = Val.num 1 ∨ p.2 = Val.num 0 := by
      rcases hvals v hvf with h | h <;> rw [← hvp, h] <;> simp [loanStatusMap]
    intro hm
    obtain ⟨q, hq, hqe⟩ := List.mem_map.mp hm
    by_cases hcond : q.1 = "Loan_Status"
    · rw [if_pos hcond] at hqe
      rcases hp2v with h | h <;> rw [h] at hqe <;> exact Val.noConfusion hqe
    · rw [if_neg hcond] at hqe
      have hq2 : q.2 ∈ p.1 := (List.of_mem_zip hq).2
      rw [hqe] at hq2
      exact null_not_mem_of_rowHasNull_eq_false hp1n hq2

/-- Witness for C5: both parts of the amended theorem applied to
concrete batches — `f5` (a duplicate identifier and a null row) for the
main loader, and a `'Y'`-labelled batch for `load_and_clean_data`. -/
theorem C5_amended_no_null_after_cleaning_witness :
    (cleanBatch f5 = some g5 ∧ Val.null ∉ row5A) ∧
    ("Loan_Status" ∈ lsYN.cols ∧ Val.null ∉ [Val.num 1]) :=
  ⟨⟨by decide, C5_amended_no_null_after_cleaning.1 f5 g5 (by decide) row5A (by decide)⟩,
   ⟨by decide, C5_amended_no_null_after_cleaning.2 lsYN (by decide) (by decide)
      [Val.num 1] (by decide)⟩⟩

/-! ## C6 — identifier deduplication -/

/-- The rows deduplication keeps form an order-preserving sublist of the
input. -/
theorem dropDupRows_sublist (cols : List String) (key : String) :
    ∀ (rs : List (List Val)) (seen : List Val), (dropDupRows cols key rs seen).Sublist rs := by
  intro rs
  induction rs with
  | nil => intro seen; exact List.Sublist.refl _
  | cons x t ih =>
    intro seen
    by_cases h : cellOf cols x key ∈ seen
    · simp only [dropDupRows, if_pos h]
      exact (ih seen).cons x
    · simp only [dropDupRows, if_neg h]
      exact (ih _).cons₂ x

/-- Every row deduplication keeps has a key outside the already-seen
set, and is the *first* row of the input bearing its key. -/
theorem dropDupRows_spec (cols : List String) (key : String) :
    ∀ (rs : List (List Val)) (seen : List Val) (r : List Val),
      r ∈ dropDupRows cols key rs seen →
      cellOf cols r key ∉ seen ∧
      rs.find? (fun r' => decide (cellOf cols r' key = cellOf cols r key)) = some r := by
  intro rs
  induction rs with
  | nil => intro seen r h; simp [dropDupRows] at h
  | cons x t ih =>
    intro seen r h
    by_cases hx : cellOf cols x key ∈ seen
    · simp only [dropDupRows, if_pos hx] at h
      obtain ⟨h1, h2⟩ := ih seen r h
      refine ⟨h1, ?_⟩
      rw [List.find?_cons_of_neg, h2]
      simp only [decide_eq_true_eq]
      intro he
      exact h1 (he ▸ hx)
    · simp only [dropDupRows, if_neg hx, List.mem_cons] at h
      rcases h with h | h
      · subst h
        refine ⟨hx, ?_⟩
        rw [List.find?_cons_of_pos]
        simp
      · obtain ⟨h1, h2⟩ := ih _ r h
        rw [List.mem_cons] at h1
        push_neg at h1
        refine ⟨h1.2, ?_⟩
        rw [List.find?_cons_of_neg, h2]
        simp only [decide_eq_true_eq]
        exact fun he => h1.1 he.symm

/-- The key column of the deduplicated rows has no duplicates. -/
theorem dropDupRows_keys_nodup (cols : List String) (key : String) :
    ∀ (rs : List (List Val)) (seen : List Val),
      ((dropDupRows cols key rs seen).map (fun r => cellOf cols r key)).Nodup := by
  intro rs
  induction rs with
  | nil => intro seen; simp [dropDupRows]
  | cons x t ih =>
    intro seen
    by_cases hx : cellOf cols x key ∈ seen
    · simp only [dropDupRows, if_pos hx]
      exact ih seen
    · simp only [dropDupRows, if_neg hx, List.map_cons, List.nodup_cons]
      refine ⟨?_, ih _⟩
      intro hmem
      obtain ⟨r, hr, he⟩ := List.mem_map.mp hmem
      have hs := (dropDupRows_spec cols key t _ r hr).1
      apply hs
      rw [he]
      exact List.mem_cons_self _ _

/-- C6 (counterexample): each chunk is clean on its own — `_clean`
returns it unchanged — yet the concatenated training frame
(`pd.concat` over cleaned chunks, train.py line 48) carries identifier
1 twice: cleaning is per chunk, and nothing deduplicates across
chunks. -/
theorem C6_counterexample_concat_duplicate_ids :
    cleanBatch chunkA = some chunkA ∧ cleanBatch chunkB = some chunkB ∧
    ¬ (((concatFrames chunkA chunkB).rows.map
        (fun r => cellOf (concatFrames chunkA chunkB).cols r "loan_id")).Nodup) := by
  refine ⟨by decide, by decide, by decide⟩

/-- C6 (amended): within a single cleaned batch the claim holds — the
output rows are an order-preserving subset of the input, their
identifiers are pairwise distinct, and every retained row is the first
row of the input batch bearing its identifier.  Across concatenated
chunks the invariant does not survive. -/
theorem C6_amended_per_batch_dedup : ∀ f g, cleanBatch f = some g →
    g.rows.Sublist f.rows ∧
    ((g.rows.map (fun r => cellOf f.cols r "loan_id")).Nodup) ∧
    (∀ r ∈ g.rows,
      f.rows.find?
        (fun r' => decide (cellOf f.cols r' "loan_id" = cellOf f.cols r "loan_id")) = some r) := by
  intro f g hg
  unfold cleanBatch at hg
  split at hg
  · injection hg with hg
    subst hg
    refine ⟨?_, ?_, ?_⟩
    · exact (List.filter_sublist _).trans (dropDupRows_sublist _ _ _ _)
    · exact List.Nodup.sublist ((List.filter_sublist _).map _)
        (dropDupRows_keys_nodup f.cols "loan_id" f.rows [])
    · intro r hr
      exact (dropDupRows_spec f.cols "loan_id" f.rows [] r (List.mem_of_mem_filter hr)).2
  · exact Option.noConfusion hg

/-- Witness for C6: the amended theorem applied to the concrete batch
`f6`, whose two rows share identifier 1; cleaning keeps exactly the
first. -/
theorem C6_amended_per_batch_dedup_witness :
    cleanBatch f6 = some g6 ∧
    (g6.rows.Sublist f6.rows ∧
      ((g6.rows.map (fun r => cellOf f6.cols r "loan_id")).Nodup) ∧
      (∀ r ∈ g6.rows,
        f6.rows.find?
          (fun r' => decide (cellOf f6.cols r' "loan_id" = cellOf f6.cols r "loan_id"))
          = some r)) :=
  ⟨by decide, C6_amended_per_batch_dedup f6 g6 (by decide)⟩

/-! ## C7 — train/validation split -/

/-- C7 (counterexample): the claim says the trainer splits with
stratification; the root trainer's split call (`train_model.py` line 7)
passes no `stratify` argument — only `src/train.py` stratifies. -/
theorem C7_counterexample_train_model_not_stratified :
    trainModelSplitCall.stratified = false ∧ trainModelSplitCall.seed = 42 := ⟨rfl, rfl⟩

/-- C7 (amended): `src/train.py` splits 80/20, stratified, with fixed
seed 2025; and under the stratified per-class allocation (class 1's
test count within the floor/ceiling of its exact proportional share)
the test partition's class-1 share differs from the full data's class-1
share by at most `1 / n_test`. -/
theorem C7_amended_stratified_split_balance :
    trainSplitCall.stratified = true ∧ trainSplitCall.testSize = 1 / 5 ∧
    trainSplitCall.seed = 2025 ∧
    ∀ n0 n1 t1 : ℕ, 0 < nTestOf (n0 + n1) (1 / 5) → stratTestBounds n0 n1 t1 →
      |((t1 : ℚ) / (nTestOf (n0 + n1) (1 / 5) : ℚ)) - (n1 : ℚ) / ((n0 + n1 : ℕ) : ℚ)|
        ≤ 1 / (nTestOf (n0 + n1) (1 / 5) : ℚ) := by
  refine ⟨rfl, rfl, rfl, ?_⟩
  intro n0 n1 t1 hnt hb
  have hn : 0 < n0 + n1 := by
    by_contra hc
    push_neg at hc
    have h0 : n0 + n1 = 0 := Nat.le_zero.mp hc
    rw [h0] at hnt
    have hz : nTestOf 0 (1 / 5) = 0 := by norm_num [nTestOf]
    omega
  unfold stratTestBounds at hb
  obtain ⟨hb1, hb2⟩ := hb
  have hfl := Int.sub_one_lt_floor
    ((n1 : ℚ) * (nTestOf (n0 + n1) (1 / 5) : ℚ) / ((n0 + n1 : ℕ) : ℚ))
  have hcl := Int.ceil_lt_add_one
    ((n1 : ℚ) * (nTestOf (n0 + n1) (1 / 5) : ℚ) / ((n0 + n1 : ℕ) : ℚ))
  have habs : |(t1 : ℚ) - (n1 : ℚ) * (nTestOf (n0 + n1) (1 / 5) : ℚ) / ((n0 + n1 : ℕ) : ℚ)| ≤ 1 :=
    abs_le.mpr ⟨by linarith, by linarith⟩
  have hnt' : (0 : ℚ) < (nTestOf (n0 + n1) (1 / 5) : ℚ) := by exact_mod_cast hnt
  have heq : (t1 : ℚ) / (nTestOf (n0 + n1) (1 / 5) : ℚ) - (n1 : ℚ) / ((n0 + n1 : ℕ) : ℚ)
      = ((t1 : ℚ) - (n1 : ℚ) * (nTestOf (n0 + n1) (1 / 5) : ℚ) / ((n0 + n1 : ℕ) : ℚ))
        / (nTestOf (n0 + n1) (1 / 5) : ℚ) := by
    have hnq : (0 : ℚ) < ((n0 + n1 : ℕ) : ℚ) := by exact_mod_cast hn
    field_simp
    ring
  rw [heq, abs_div, abs_of_pos hnt']
  exact (div_le_div_iff_of_pos_right hnt').mpr habs

/-- Witness for C7: eight rows, four of each class; the stratified
allocation puts one class-1 row into the two-row test set, and the
class share deviates by 0 ≤ 1/2. -/
theorem C7_amended_stratified_split_balance_witness :
    0 < nTestOf (4 + 4) (1 / 5) ∧ stratTestBounds 4 4 1 ∧
    |(((1 : ℕ) : ℚ) / (nTestOf (4 + 4) (1 / 5) : ℚ)) - ((4 : ℕ) : ℚ) / ((4 + 4 : ℕ) : ℚ)|
      ≤ 1 / (nTestOf (4 + 4) (1 / 5) : ℚ) := by
  have h1 : nTestOf (4 + 4) (1 / 5) = 2 := by
    unfold nTestOf
    have hc : ⌈(1 / 5 : ℚ) * ((4 + 4 : ℕ) : ℚ)⌉ = 2 := by
      rw [Int.ceil_eq_iff]
      norm_num
    rw [hc]
    rfl
  refine ⟨by rw [h1]; norm_num, ?_, ?_⟩
  · unfold stratTestBounds
    rw [h1]
    norm_num
  · exact C7_amended_stratified_split_balance.2.2.2 4 4 1 (by rw [h1]; norm_num)
      (by unfold stratTestBounds; rw [h1]; norm_num)

/-! ## C8 — evaluator metrics -/

/-- C8 (counterexample): on labels `[0,1,1,0]` and probabilities
`[0.1,0.9,0.4,0.2]`, the probability-based AUC is 1, but
`train_model.py` feeds `roc_auc_score` the hard class predictions
(`model.predict`, i.e. `[0,1,0,0]` for these probabilities at the 0.5
argmax threshold), which yields 3/4 — not the value computed from the
probabilities themselves. -/
theorem C8_counterexample_auc_from_class_predictions :
    (trainModelEval [0, 1, 1, 0] [0, 1, 0, 0]).2 = 3 / 4 ∧
    (trainEval [0, 1, 1, 0] [1/10, 9/10, 4/10, 2/10]).1 = 1 ∧ (3 / 4 : ℚ) ≠ 1 := by
  refine ⟨?_, ?_, by norm_num⟩
  · norm_num [trainModelEval, aucScore, List.filter, List.zip, List.zipWith]
  · norm_num [trainEval, aucScore, List.filter, List.zip, List.zipWith]

/-- C8 (amended): `train.py`'s evaluation matches the claim — AUC from
the probabilities themselves and F1 from the probabilities thresholded
at 0.5 equal the reference values 1 and 2/3 on the given example.
`train_model.py` computes both metrics from hard class predictions: its
F1 agrees (2/3) but its AUC is 3/4, not the probability-based value. -/
theorem C8_amended_metric_values :
    trainEval [0, 1, 1, 0] [1/10, 9/10, 4/10, 2/10] = (1, 2/3) ∧
    trainModelEval [0, 1, 1, 0] [0, 1, 0, 0] = (2/3, 3/4) := by
  constructor
  · rw [Prod.ext_iff]
    constructor
    · norm_num [trainEval, aucScore, List.filter, List.zip, List.zipWith]
    · norm_num [trainEval, f1Score, precisionQ, recallQ, tpCount, fpCount, fnCount,
        trainThresholdPositive, List.filter, List.zip, List.zipWith]
  · rw [Prod.ext_iff]
    constructor
    · norm_num [trainModelEval, f1Score, precisionQ, recallQ, tpCount, fpCount, fnCount,
        List.filter, List.zip, List.zipWith]
    · norm_num [trainModelEval, aucScore, List.filter, List.zip, List.zipWith]

/-! ## C9 — final refit round count -/

/-- C9: the refit's round count is
`best_trial.user_attrs.get("n_boost_round", 500)`, but `objective`
never records `n_boost_round`, so whatever round the best trial
early-stopped at (say 137), the final refit always uses the fallback
500 — the early-stopped count is never carried. -/
theorem C9_refit_rounds_always_default :
    (∀ b : ℕ, finalNumBoostRound (objectiveTrial b) = 500) ∧
    finalNumBoostRound (objectiveTrial 137) = 500 ∧ (137 : ℕ) ≠ 500 :=
  ⟨fun _ => rfl, rfl, by decide⟩

/-! ## C10 — decision thresholds -/

/-- C10: the serving endpoint reports `defaulted = true` exactly when
the probability is ≥ 0.5 — in particular a probability of exactly 0.5
is classified as a default — while the training-time F1 thresholding
counts only probabilities strictly greater than 0.5 as positive. -/
theorem C10_serving_threshold_inclusive :
    (∀ p : ℚ, servingDefault p = true ↔ 1 / 2 ≤ p) ∧
    servingDefault (1 / 2) = true ∧ trainThresholdPositive (1 / 2) = false := by
  refine ⟨fun p => by simp [servingDefault], ?_, ?_⟩
  · simp [servingDefault]
  · simp [trainThresholdPositive]
